import Mathlib

/-!
Verification of the Helmholtz resonance calculator (`helmotz_freq.py`).

The engine consists of two functions:

* `calculate_holes_from_spacing` — counts the points of a centered square
  lattice of pitch `spacing_mm` that fall inside the circular material
  footprint of diameter `D_mm`.
* `calculate_metrics` — resolves a heterogeneous parameter dictionary into a
  physical state (hole count `N`, open area `A`, cavity volume `V`, effective
  neck length `Leff`), validates positivity of `A`, `V`, `Leff`, and computes
  the resonance frequency `f0 = k * (c / (2*pi)) * sqrt (A / (V * Leff))`
  together with derived metrics (`OA%`, areal density, lattice spacing).

The embedding works over the real numbers (idealized float arithmetic).
A Python dictionary with possibly missing keys is modelled by a structure of
`Option` fields; every operation that raises an exception in Python
(missing key, division by zero, square root of a negative number) is
modelled by returning `none`, matching the `try`/`except` wrapper of
`calculate_metrics` which converts any exception into a `None` result.
Python's `int()` (truncation toward zero) is modelled by `pyInt`.
-/

open Real

/-- Python `int()` applied to a float: truncation toward zero. -/
noncomputable def pyInt (x : ℝ) : ℤ :=
  if 0 ≤ x then ⌊x⌋ else ⌈x⌉

/-- Input dictionary of `calculate_metrics`: each numeric key may be absent
(`none`), as may the three mode strings (which the code reads with
`inputs.get(key, default)`). -/
structure Inputs where
  temp : Option ℝ := none
  D : Option ℝ := none
  t : Option ℝ := none
  k : Option ℝ := none
  L : Option ℝ := none
  V : Option ℝ := none
  d : Option ℝ := none
  N : Option ℝ := none
  density : Option ℝ := none
  OA : Option ℝ := none
  spacing : Option ℝ := none
  A : Option ℝ := none
  Leff : Option ℝ := none
  hole_mode : Option String := none
  volume_mode : Option String := none
  mode : Option String := none

/-- Result dictionary of a successful `calculate_metrics` call.
`OA_percent` is the `'OA%'` key; `V` is in liters and `Leff` in mm,
as returned by the code. -/
structure Metrics where
  f0 : ℝ
  OA_percent : ℝ
  density : ℝ
  spacing : ℝ
  N : ℝ
  V : ℝ
  A : ℝ
  Leff : ℝ

/-- Intermediate physical state resolved by lines 29-69 of the source:
material footprint area (m²), cavity volume (m³), open area (m²),
effective neck length (m), hole count, and hole diameter (m). -/
structure ResolvedState where
  material_area : ℝ
  V : ℝ
  A : ℝ
  Leff : ℝ
  N : ℝ
  d : ℝ

/-- Hole-count resolution (lines 47-61 of the source): the `calc_mode`
dispatch.  `Density`, `OA%` and `Spacing` truncate with Python `int()`;
`OA%` divides by `hole_area` (exception when zero) and `Spacing` divides by
`spacing_cm ** 2` (exception when zero); only `Spacing` applies the
`max(N, 1)` floor. -/
noncomputable def resolveN (calc_mode : String) (inputs : Inputs)
    (material_area hole_area : ℝ) : Option ℝ :=
  if calc_mode = "Number" then inputs.N
  else if calc_mode = "Density" then
    (inputs.density).map fun ρ => ((pyInt (ρ * (material_area * 10000)) : ℤ) : ℝ)
  else if calc_mode = "OA%" then
    (inputs.OA).bind fun OA =>
      if hole_area = 0 then none
      else some ((pyInt (max 0 (OA / 100 * material_area) / hole_area) : ℤ) : ℝ)
  else if calc_mode = "Spacing" then
    (inputs.spacing).bind fun spacing_mm =>
      if (spacing_mm / 10) ^ 2 = 0 then none
      else
        some ((max (pyInt ((1 / (spacing_mm / 10) ^ 2) * (material_area * 10000))) 1 : ℤ) : ℝ)
  else some (inputs.N.getD 0)

/-- Geometry resolution, lines 29-69 of the source: unit conversions,
material area, cavity volume, and the hole-mode dispatch producing
`A`, `Leff`, `N`, `d`. -/
noncomputable def resolveState (inputs : Inputs) : Option ResolvedState := do
  let hole_mode := inputs.hole_mode.getD "Standard"
  let volume_mode := inputs.volume_mode.getD "Standard"
  let calc_mode := inputs.mode.getD "Number"
  let Draw ← inputs.D
  let traw ← inputs.t
  let D := Draw / 1000
  let t := traw / 1000
  let material_area := if D > 0 then Real.pi * (D / 2) ^ 2 else 0
  let Vopt : Option ℝ :=
    if volume_mode = "Standard" then
      (inputs.L).map fun Lmm => material_area * (Lmm / 1000)
    else
      (inputs.V).map fun VL => VL / 1000
  let V ← Vopt
  if hole_mode = "Standard" then
    let draw ← inputs.d
    let d := draw / 1000
    let hole_area := Real.pi * (d / 2) ^ 2
    let N ← resolveN calc_mode inputs material_area hole_area
    pure ⟨material_area, V, N * hole_area, t + 1.7 * d / 2, N, d⟩
  else do
    let A ← inputs.A
    let LeffRaw ← inputs.Leff
    pure ⟨material_area, V, A, LeffRaw / 1000, 0, 0⟩

/-- Full evaluator (`calculate_metrics`, lines 20-105 of the source).
Computes the speed of sound (exception when `273.15 + temp < 0`), resolves
the geometry, validates `A > 0`, `V > 0`, `Leff > 0` (line 71), computes
`f0` (line 74) and the derived metrics (lines 77-89), returning the result
dictionary of line 91; any exception path returns `none` (lines 102-105). -/
noncomputable def calculate_metrics (inputs : Inputs) : Option Metrics := do
  let hole_mode := inputs.hole_mode.getD "Standard"
  let calc_mode := inputs.mode.getD "Number"
  let T ← inputs.temp
  if 273.15 + T < 0 then none
  else do
    let c := 20.05 * Real.sqrt (273.15 + T)
    let st ← resolveState inputs
    if st.A ≤ 0 ∨ st.V ≤ 0 ∨ st.Leff ≤ 0 then none
    else do
      let k ← inputs.k
      let f0 := k * (c / (2 * Real.pi)) * Real.sqrt (st.A / (st.V * st.Leff))
      if hole_mode = "Standard" then do
        let OA_opt : Option ℝ :=
          if calc_mode = "Spacing" then
            (inputs.spacing).bind fun spacing_mm =>
              if 4 * spacing_mm ^ 2 = 0 then none
              else some (((Real.pi * (st.d * 1000) ^ 2) / (4 * spacing_mm ^ 2)) * 100)
          else
            some (if st.material_area > 0 then (st.A / st.material_area) * 100 else 0)
        let OA_percent ← OA_opt
        let density := if st.material_area > 0 then st.N / (st.material_area * 10000) else 0
        let spacing_opt : Option ℝ :=
          if st.N ≠ 0 ∧ st.material_area > 0 then
            if 1 / (st.N / (st.material_area * 10000)) < 0 then none
            else some (Real.sqrt (1 / (st.N / (st.material_area * 10000))) * 10)
          else some 0
        let spacing ← spacing_opt
        pure ⟨f0, OA_percent, density, spacing, st.N, st.V * 1000, st.A, st.Leff * 1000⟩
      else
        pure ⟨f0, (if st.material_area > 0 then (st.A / st.material_area) * 100 else 0),
              0, 0, st.N, st.V * 1000, st.A, st.Leff * 1000⟩

/-- Hole layout resolver (`calculate_holes_from_spacing`, lines 12-18 of the
source): `grid_points = int(D_mm // spacing_mm)` axis positions starting at
`-((grid_points - 1) * spacing_mm) / 2`, counting the pairs whose
`math.hypot` from the center is at most `D_mm / 2`.  The nested generator
`sum(1 for x in positions for y in positions if ...)` is embedded as a sum
over `x` of a count over `y`. -/
noncomputable def calculate_holes_from_spacing (D_mm spacing_mm : ℝ) : ℕ :=
  let radius := D_mm / 2
  let grid_points := (⌊D_mm / spacing_mm⌋).toNat
  let start := -(((grid_points : ℝ) - 1) * spacing_mm) / 2
  let positions : List ℝ := (List.range grid_points).map fun i : ℕ => start + (i : ℝ) * spacing_mm
  (positions.map fun x =>
    positions.countP fun y => decide (Real.sqrt (x ^ 2 + y ^ 2) ≤ radius)).sum

/-- Specification-side description of the hole layout resolver: the number of
points of a square lattice with pitch `s`, `n = floor(D / s)` positions per
axis placed symmetrically about the center of the footprint, whose Euclidean
distance from the center is at most `D / 2` (closed-disk membership). -/
noncomputable def latticePointsInDisk (D s : ℝ) : ℕ :=
  let n := (⌊D / s⌋).toNat
  (((Finset.range n) ×ˢ (Finset.range n)).filter fun p =>
    Real.sqrt ((((p.1 : ℝ) - ((n : ℝ) - 1) / 2) * s) ^ 2 +
      (((p.2 : ℝ) - ((n : ℝ) - 1) / 2) * s) ^ 2) ≤ D / 2).card

/-- Executable rational-arithmetic mirror of `calculate_holes_from_spacing`,
used to evaluate the hole count at concrete rational inputs (the square-root
comparison is replaced by the equivalent squared comparison). -/
def ratHoleCount (D s : ℚ) : ℕ :=
  let n := (⌊D / s⌋).toNat
  let positions : List ℚ := (List.range n).map fun i : ℕ => -(((n : ℚ) - 1) * s) / 2 + (i : ℚ) * s
  (positions.map fun x => positions.countP fun y => decide (x ^ 2 + y ^ 2 ≤ (D / 2) ^ 2)).sum

/-- Sweep parameter mapping of the panel form (lines 189-214 of the source):
overrides the varying field in a copy of the base inputs, forcing the
matching hole-count mode where the code does.  An unknown name leaves the
inputs unchanged. -/
noncomputable def applyVaryParam (vary : String) (base : Inputs) (val : ℝ) : Inputs :=
  if vary = "Temperature" then { base with temp := some val }
  else if vary = "Panel thickness" then { base with t := some val }
  else if vary = "Panel diameter" then { base with D := some val }
  else if vary = "Air gap" then { base with L := some val }
  else if vary = "Volume" then { base with V := some val }
  else if vary = "Hole diameter" then { base with d := some val }
  else if vary = "Hole density" then { base with density := some val, mode := some "Density" }
  else if vary = "Number of holes" then { base with N := some ((pyInt val : ℤ) : ℝ), mode := some "Number" }
  else if vary = "OA%" then { base with OA := some val, mode := some "OA%" }
  else if vary = "Hole spacing" then { base with spacing := some val, mode := some "Spacing" }
  else if vary = "Correction factor" then { base with k := some val }
  else base

/-- Panel sweep loop (lines 186-219 of the source): evaluate each value in
input order; a `None` result is skipped, a successful result is appended as
the pair `(value, metrics)`. -/
noncomputable def panelSweep (vary : String) (base : Inputs) : List ℝ → List (ℝ × Metrics)
  | [] => []
  | val :: rest =>
    match calculate_metrics (applyVaryParam vary base val) with
    | some m => (val, m) :: panelSweep vary base rest
    | none => panelSweep vary base rest

/-- Resolved hole count of an input set, when resolution succeeds. -/
noncomputable def resolvedN (inputs : Inputs) : Option ℝ :=
  (resolveState inputs).map fun st => st.N

/-- Direct-neck input set: direct volume (1 L), direct opening (`A` = 1 m²,
`Leff` = 50 mm), 20 °C, dummy panel diameter 100 mm and thickness 1 mm. -/
noncomputable def wDirect : Inputs :=
  { temp := some 20, D := some 100, t := some 1, k := some 1, V := some 1,
    A := some 1, Leff := some 50,
    hole_mode := some "Direct Input", volume_mode := some "Direct Input" }

/-- Resolved state of `wDirect`. -/
noncomputable def stDirect : ResolvedState :=
  ⟨Real.pi * (1 / 20) ^ 2, 1 / 1000, 1, 1 / 20, 0, 0⟩

/-- Metrics returned for `wDirect`. -/
noncomputable def mDirect : Metrics :=
  ⟨1 * ((20.05 * Real.sqrt (273.15 + 20)) / (2 * Real.pi)) *
      Real.sqrt (1 / ((1 / 1000) * (1 / 20))),
    (1 / (Real.pi * (1 / 20) ^ 2)) * 100, 0, 0, 0, 1, 1, 50⟩

/-- The `wDirect` inputs with temperature set to -300 °C (below absolute
zero, so the speed-of-sound square root fails). -/
noncomputable def c2in : Inputs :=
  { wDirect with temp := some (-300) }

/-- Density-mode panel input whose areal density is so small that the
truncated hole count is 0: 0.001 holes/cm² on a 100 mm panel. -/
noncomputable def c3in : Inputs :=
  { temp := some 20, D := some 100, t := some 1, k := some 1, L := some 10,
    d := some 5, mode := some "Density", density := some 0.001 }


/-- Resolved state of `c3in` (hole count truncates to 0). -/
noncomputable def c3st : ResolvedState :=
  ⟨Real.pi * (1 / 20) ^ 2, Real.pi * (1 / 20) ^ 2 * (1 / 100), 0, 21 / 4000, 0, 1 / 200⟩

/-- Spacing-mode panel input: 20 mm panel, 10 mm spacing, 5 mm holes,
10 mm air gap (resolves to N = 3). -/
noncomputable def wSpacing : Inputs :=
  { temp := some 20, D := some 20, t := some 1, k := some 1, L := some 10,
    d := some 5, mode := some "Spacing", spacing := some 10 }

/-- Resolved state of `wSpacing`. -/
noncomputable def stSpacing : ResolvedState :=
  ⟨Real.pi * (1 / 100) ^ 2, Real.pi * (1 / 100) ^ 2 * (1 / 100),
    3 * (Real.pi * (1 / 400) ^ 2), 21 / 4000, 3, 1 / 200⟩

/-- Number-mode panel input with a non-positive panel diameter and a direct
cavity volume: the material footprint area resolves to 0 while the
evaluation still succeeds. -/
noncomputable def c8in : Inputs :=
  { temp := some 20, D := some 0, t := some 1, k := some 1, V := some 1,
    d := some 5, N := some 100, mode := some "Number",
    volume_mode := some "Direct Input" }

/-- Resolved state of `c8in`. -/
noncomputable def c8st : ResolvedState :=
  ⟨0, 1 / 1000, 100 * (Real.pi * (1 / 400) ^ 2), 21 / 4000, 100, 1 / 200⟩

/-- Metrics returned for `c8in`: hole metrics degenerate to 0 because the
material area is 0. -/
noncomputable def c8m : Metrics :=
  ⟨1 * ((20.05 * Real.sqrt (273.15 + 20)) / (2 * Real.pi)) *
      Real.sqrt ((100 * (Real.pi * (1 / 400) ^ 2)) / ((1 / 1000) * (21 / 4000))),
    0, 0, 0, 100, 1, 100 * (Real.pi * (1 / 400) ^ 2), 21 / 4⟩

/-- Number-mode panel input of the specification's concrete scenario:
100 mm panel, 1 mm thickness, 5 mm holes, 10 mm air gap, 100 holes, 20 °C. -/
noncomputable def wNumber : Inputs :=
  { temp := some 20, D := some 100, t := some 1, k := some 1, L := some 10,
    d := some 5, N := some 100, mode := some "Number" }

/-- Resolved state of `wNumber`. -/
noncomputable def stNumber : ResolvedState :=
  ⟨Real.pi * (1 / 20) ^ 2, Real.pi * (1 / 20) ^ 2 * (1 / 100),
    100 * (Real.pi * (1 / 400) ^ 2), 21 / 4000, 100, 1 / 200⟩

/-- Metrics returned for `wNumber`. -/
noncomputable def mNumber : Metrics :=
  ⟨1 * ((20.05 * Real.sqrt (273.15 + 20)) / (2 * Real.pi)) *
      Real.sqrt ((100 * (Real.pi * (1 / 400) ^ 2)) /
        ((Real.pi * (1 / 20) ^ 2 * (1 / 100)) * (21 / 4000))),
    (100 * (Real.pi * (1 / 400) ^ 2) / (Real.pi * (1 / 20) ^ 2)) * 100,
    100 / (Real.pi * (1 / 20) ^ 2 * 10000),
    Real.sqrt (1 / (100 / (Real.pi * (1 / 20) ^ 2 * 10000))) * 10,
    100, Real.pi * (1 / 20) ^ 2 * (1 / 100) * 1000,
    100 * (Real.pi * (1 / 400) ^ 2), 21 / 4⟩

/-- Axis position `i` of a centered lattice with `n` points and pitch `s`,
as computed by `calculate_holes_from_spacing`. -/
noncomputable def gridPos (n : ℕ) (s : ℝ) (i : ℕ) : ℝ :=
  -(((n : ℝ) - 1) * s) / 2 + (i : ℝ) * s

/-- Integer-scaled closed-disk membership test for lattice index pair
`(i, j)`: the condition of `calculate_holes_from_spacing` at diameter `D`
and pitch `p / q`, multiplied through by `(2 * q) ^ 2`. -/
def intCond (D p q n : ℤ) (i j : ℕ) : Bool :=
  decide (((2 * (i : ℤ) - (n - 1)) * p) * ((2 * (i : ℤ) - (n - 1)) * p) +
    ((2 * (j : ℤ) - (n - 1)) * p) * ((2 * (j : ℤ) - (n - 1)) * p) ≤ (D * q) * (D * q))

/-- Executable integer-arithmetic mirror of `calculate_holes_from_spacing`
at diameter `D` and rational pitch `p / q`, used to evaluate the hole count
at concrete inputs. -/
def intHoleCount (D p q : ℤ) : ℕ :=
  let n := D * q / p
  ((List.range n.toNat).map fun i : ℕ =>
    (List.range n.toNat).countP fun j : ℕ => intCond D p q n i j).sum

theorem list_sum_map_range {M : Type*} [AddCommMonoid M] (f : ℕ → M) (n : ℕ) :
    ((List.range n).map f).sum = ∑ i in Finset.range n, f i := by
  induction n with
  | zero => simp
  | succ n ih => simp [List.range_succ, Finset.sum_range_succ, ih]

theorem list_countP_range (q : ℕ → Bool) (n : ℕ) :
    (List.range n).countP q = ∑ i in Finset.range n, if q i then 1 else 0 := by
  induction n with
  | zero => simp
  | succ n ih =>
    rw [List.range_succ, List.countP_append, ih, Finset.sum_range_succ]
    simp [List.countP_cons]

theorem holes_eq_filter_card (D s : ℝ) :
    calculate_holes_from_spacing D s =
      ((Finset.range ((⌊D / s⌋).toNat) ×ˢ Finset.range ((⌊D / s⌋).toNat)).filter fun p =>
        Real.sqrt (gridPos ((⌊D / s⌋).toNat) s p.1 ^ 2 +
          gridPos ((⌊D / s⌋).toNat) s p.2 ^ 2) ≤ D / 2).card := by
  rw [Finset.card_filter, Finset.sum_product]
  simp only [calculate_holes_from_spacing]
  rw [List.map_map, list_sum_map_range]
  refine Finset.sum_congr rfl fun i _ => ?_
  simp only [Function.comp_apply, List.countP_map, list_countP_range]
  refine Finset.sum_congr rfl fun j _ => ?_
  simp only [Function.comp_apply, gridPos, decide_eq_true_eq]

/-- C5: for every positive material diameter `D` and positive spacing `s`,
the hole layout resolver returns exactly the number of points of a square
lattice with pitch `s`, `floor(D / s)` positions per axis placed
symmetrically about the footprint center, whose Euclidean distance from the
center is at most `D / 2` (closed-disk membership). -/
theorem holes_eq_lattice_disk_count (D s : ℝ) (hD : 0 < D) (hs : 0 < s) :
    calculate_holes_from_spacing D s = latticePointsInDisk D s := by
  rw [holes_eq_filter_card]
  simp only [latticePointsInDisk]
  congr 1
  apply Finset.filter_congr
  intro p hp
  have e : ∀ i : ℕ, gridPos ((⌊D / s⌋).toNat) s i =
      ((i : ℝ) - (((⌊D / s⌋).toNat : ℝ) - 1) / 2) * s := by
    intro i; simp only [gridPos]; ring
  rw [e p.1, e p.2]

/-- Witness for C5 at the concrete input `D = 10`, `s = 3`. -/
theorem holes_eq_lattice_disk_count_witness :
    (0 : ℝ) < 10 ∧ (0 : ℝ) < 3 ∧
      calculate_holes_from_spacing 10 3 = latticePointsInDisk 10 3 :=
  ⟨by norm_num, by norm_num, holes_eq_lattice_disk_count 10 3 (by norm_num) (by norm_num)⟩

/-- C6 counterexample: for `D = 10` and spacing `20 > D` the resolver
returns 0, not 1 as the claim states (`int(10 // 20) = 0` grid positions). -/
theorem holes_beyond_diameter_cex : calculate_holes_from_spacing 10 20 = 0 := by
  have h0 : ⌊(10 : ℝ) / 20⌋ = 0 := by
    rw [Int.floor_eq_zero_iff, Set.mem_Ico]
    norm_num
  simp [calculate_holes_from_spacing, h0]

/-- C6 amended: for positive `D`, the resolver returns 1 when the spacing
equals `D` exactly, and 0 for any spacing strictly greater than `D`. -/
theorem holes_at_beyond_diameter (D : ℝ) (hD : 0 < D) :
    calculate_holes_from_spacing D D = 1 ∧
      ∀ s : ℝ, D < s → calculate_holes_from_spacing D s = 0 := by
  constructor
  · have h1 : ⌊D / D⌋ = 1 := by rw [div_self (ne_of_gt hD)]; exact Int.floor_one
    simp [calculate_holes_from_spacing, h1, List.range_succ, List.countP_cons,
      (half_pos hD).le]
  · intro s hs
    have h0 : ⌊D / s⌋ = 0 := by
      rw [Int.floor_eq_zero_iff, Set.mem_Ico]
      constructor
      · exact div_nonneg hD.le (le_of_lt (lt_trans hD hs))
      · exact (div_lt_one (lt_trans hD hs)).mpr hs
    simp [calculate_holes_from_spacing, h0]

/-- Witness for C6 amended at `D = 10` (with `s = 20` for the second part). -/
theorem holes_at_beyond_diameter_witness :
    (0 : ℝ) < 10 ∧ (10 : ℝ) < 20 ∧ calculate_holes_from_spacing 10 10 = 1 ∧
      calculate_holes_from_spacing 10 20 = 0 :=
  ⟨by norm_num, by norm_num, (holes_at_beyond_diameter 10 (by norm_num)).1,
    (holes_at_beyond_diameter 10 (by norm_num)).2 20 (by norm_num)⟩

/-- C7 amended: for fixed `D`, the hole count is monotonically non-increasing
in the spacing as long as the per-axis grid count `floor(D / s)` does not
change; across changes of that count the property fails (see the
counterexample). -/
theorem holes_antitone_within_regime (D s1 s2 : ℝ) (hs1 : 0 < s1) (h12 : s1 ≤ s2)
    (hfl : ⌊D / s1⌋ = ⌊D / s2⌋) :
    calculate_holes_from_spacing D s2 ≤ calculate_holes_from_spacing D s1 := by
  rw [holes_eq_filter_card D s1, holes_eq_filter_card D s2, hfl]
  apply Finset.card_le_card
  intro p hp
  rw [Finset.mem_filter] at hp ⊢
  have key : ∀ i : ℕ, gridPos ((⌊D / s2⌋).toNat) s1 i ^ 2 ≤
      gridPos ((⌊D / s2⌋).toNat) s2 i ^ 2 := by
    intro i
    have e1 : gridPos ((⌊D / s2⌋).toNat) s1 i ^ 2 =
        ((i : ℝ) - (((⌊D / s2⌋).toNat : ℝ) - 1) / 2) ^ 2 * s1 ^ 2 := by
      simp only [gridPos]; ring
    have e2 : gridPos ((⌊D / s2⌋).toNat) s2 i ^ 2 =
        ((i : ℝ) - (((⌊D / s2⌋).toNat : ℝ) - 1) / 2) ^ 2 * s2 ^ 2 := by
      simp only [gridPos]; ring
    rw [e1, e2]
    exact mul_le_mul_of_nonneg_left (by nlinarith) (sq_nonneg _)
  exact ⟨hp.1, le_trans (Real.sqrt_le_sqrt (add_le_add (key p.1) (key p.2))) hp.2⟩

/-- Witness for C7 amended: `D = 10`, spacings 3 and 13/4 share
`floor(D / s) = 3`. -/
theorem holes_antitone_within_regime_witness :
    (0 : ℝ) < 3 ∧ (3 : ℝ) ≤ 13 / 4 ∧ ⌊(10 : ℝ) / 3⌋ = ⌊(10 : ℝ) / (13 / 4)⌋ ∧
      calculate_holes_from_spacing 10 (13 / 4) ≤ calculate_holes_from_spacing 10 3 := by
  have h1 : ⌊(10 : ℝ) / 3⌋ = 3 := by
    rw [Int.floor_eq_iff]
    norm_num
  have h2 : ⌊(10 : ℝ) / (13 / 4)⌋ = 3 := by
    rw [Int.floor_eq_iff]
    norm_num
  exact ⟨by norm_num, by norm_num, h1.trans h2.symm,
    holes_antitone_within_regime 10 3 (13 / 4) (by norm_num) (by norm_num)
      (h1.trans h2.symm)⟩

/-- C9: the panel sweep evaluates the values in input order, keeps each
successful evaluation as the pair `(value, metrics)`, skips each failed
evaluation, and never aborts: it equals the in-order `filterMap` of the
evaluator over the swept values. -/
theorem sweep_skips_failures_in_order (vary : String) (base : Inputs) (vals : List ℝ) :
    panelSweep vary base vals =
      vals.filterMap fun v =>
        (calculate_metrics (applyVaryParam vary base v)).map fun m => (v, m) := by
  induction vals with
  | nil => rfl
  | cons v rest ih =>
    rw [List.filterMap_cons]
    cases h : calculate_metrics (applyVaryParam vary base v) with
    | none => simp only [panelSweep, h, Option.map_none', ih]
    | some m => simp only [panelSweep, h, Option.map_some', ih]

/-- C10: the evaluator is total at its boundary: for every input dictionary
whatsoever it returns either a fully populated metrics record or `None`;
no exception escapes (the `try`/`except` wrapper is modelled by the
`Option` result). -/
theorem calculate_metrics_total (inputs : Inputs) :
    (∃ m, calculate_metrics inputs = some m) ∨ calculate_metrics inputs = none := by
  cases h : calculate_metrics inputs with
  | none => exact Or.inr rfl
  | some m => exact Or.inl ⟨m, rfl⟩

theorem holes_int_bridge (D p q : ℤ) (hD : 0 < D) (hp : 0 < p) (hq : 0 < q) :
    calculate_holes_from_spacing (D : ℝ) ((p : ℝ) / (q : ℝ)) = intHoleCount D p q := by
  have hn : (0 : ℤ) ≤ D * q / p := Int.ediv_nonneg (by positivity) hp.le
  have hfl : ⌊(D : ℝ) / ((p : ℝ) / (q : ℝ))⌋ = D * q / p := by
    have hptn : ((p.toNat : ℕ) : ℝ) = (p : ℝ) := by exact_mod_cast Int.toNat_of_nonneg hp.le
    have e : (D : ℝ) / ((p : ℝ) / (q : ℝ)) = (((D * q : ℤ) : ℚ) / ((p.toNat : ℕ) : ℚ) : ℚ) := by
      rw [Rat.cast_div]
      push_cast
      rw [hptn]
      field_simp
    rw [e, Rat.floor_cast, Rat.floor_intCast_div_natCast, Int.toNat_of_nonneg hp.le]
  have hcast : (((D * q / p).toNat : ℕ) : ℝ) = ((D * q / p : ℤ) : ℝ) := by
    exact_mod_cast Int.toNat_of_nonneg hn
  have hqR : (0 : ℝ) < (q : ℝ) := by exact_mod_cast hq
  have key : ∀ m : ℕ, gridPos ((D * q / p).toNat) ((p : ℝ) / (q : ℝ)) m * (2 * (q : ℝ)) =
      (((2 * (m : ℤ) - ((D * q / p) - 1)) * p : ℤ) : ℝ) := by
    intro m
    simp only [gridPos, hcast]
    push_cast
    field_simp
    ring
  have h2q : (0 : ℝ) < (2 * (q : ℝ)) ^ 2 := by positivity
  rw [holes_eq_filter_card, hfl, Finset.card_filter, Finset.sum_product]
  simp only [intHoleCount]
  rw [list_sum_map_range]
  refine Finset.sum_congr rfl fun i _ => ?_
  rw [list_countP_range]
  refine Finset.sum_congr rfl fun j _ => ?_
  refine if_congr ?_ rfl rfl
  rw [Real.sqrt_le_left (by positivity : (0 : ℝ) ≤ (D : ℝ) / 2)]
  rw [← mul_le_mul_right h2q]
  have e2 : (gridPos ((D * q / p).toNat) ((p : ℝ) / (q : ℝ)) i ^ 2 +
      gridPos ((D * q / p).toNat) ((p : ℝ) / (q : ℝ)) j ^ 2) * (2 * (q : ℝ)) ^ 2 =
      (gridPos ((D * q / p).toNat) ((p : ℝ) / (q : ℝ)) i * (2 * (q : ℝ))) ^ 2 +
      (gridPos ((D * q / p).toNat) ((p : ℝ) / (q : ℝ)) j * (2 * (q : ℝ))) ^ 2 := by ring
  have e3 : ((D : ℝ) / 2) ^ 2 * (2 * (q : ℝ)) ^ 2 = (((D * q : ℤ) : ℝ)) ^ 2 := by
    push_cast
    ring
  rw [e2, e3, key i, key j]
  simp only [intCond, decide_eq_true_eq]
  have hpow : ∀ z : ℤ, z * z = z ^ 2 := fun z => (pow_two z).symm
  rw [hpow, hpow, hpow]
  norm_cast

set_option maxRecDepth 40000 in
/-- C7 counterexample: for `D = 38` the hole count is not monotonically
non-increasing in the spacing: spacings 1 and 1001/1000 give 1124 and 1125
points respectively (the per-axis grid count drops from 38 to 37, but the
37-point lattice is more compact and keeps one more pair inside the disk). -/
theorem holes_not_monotone_cex :
    (0 : ℝ) < 1 ∧ (1 : ℝ) ≤ 1001 / 1000 ∧
      calculate_holes_from_spacing 38 1 < calculate_holes_from_spacing 38 (1001 / 1000) := by
  refine ⟨by norm_num, by norm_num, ?_⟩
  have h1 : calculate_holes_from_spacing ((38 : ℤ) : ℝ) (((1 : ℤ) : ℝ) / ((1 : ℤ) : ℝ)) =
      intHoleCount 38 1 1 :=
    holes_int_bridge 38 1 1 (by norm_num) (by norm_num) (by norm_num)
  have h2 : calculate_holes_from_spacing ((38 : ℤ) : ℝ) (((1001 : ℤ) : ℝ) / ((1000 : ℤ) : ℝ)) =
      intHoleCount 38 1001 1000 :=
    holes_int_bridge 38 1001 1000 (by norm_num) (by norm_num) (by norm_num)
  norm_num at h1 h2
  rw [h1, h2]
  decide

theorem resolveN_spacing_inv (inputs : Inputs) (ma ha N : ℝ)
    (h : resolveN "Spacing" inputs ma ha = some N) :
    ∃ sp, inputs.spacing = some sp ∧ (sp / 10) ^ 2 ≠ 0 ∧
      N = ((max (pyInt ((1 / (sp / 10) ^ 2) * (ma * 10000))) 1 : ℤ) : ℝ) := by
  rw [resolveN, if_neg (by decide : ¬("Spacing" = "Number")),
    if_neg (by decide : ¬("Spacing" = "Density")),
    if_neg (by decide : ¬("Spacing" = "OA%")),
    if_pos (rfl : "Spacing" = "Spacing"), Option.bind_eq_some] at h
  obtain ⟨sp, hsp, h⟩ := h
  by_cases hz : (sp / 10) ^ 2 = 0
  · rw [if_pos hz] at h
    exact absurd h (by simp)
  · rw [if_neg hz] at h
    exact ⟨sp, hsp, hz, ((Option.some.injEq _ _).mp h).symm⟩

theorem resolveN_density_inv (inputs : Inputs) (ma ha N : ℝ)
    (h : resolveN "Density" inputs ma ha = some N) :
    ∃ ρ, inputs.density = some ρ ∧ N = ((pyInt (ρ * (ma * 10000)) : ℤ) : ℝ) := by
  rw [resolveN, if_neg (by decide : ¬("Density" = "Number")),
    if_pos (rfl : "Density" = "Density"), Option.map_eq_some'] at h
  obtain ⟨ρ, hρ, h⟩ := h
  exact ⟨ρ, hρ, h.symm⟩

theorem resolveState_std_inv (inputs : Inputs) (st : ResolvedState)
    (hmode : inputs.hole_mode.getD "Standard" = "Standard")
    (h : resolveState inputs = some st) :
    0 ≤ st.material_area ∧ st.A = st.N * (Real.pi * (st.d / 2) ^ 2) ∧
      resolveN (inputs.mode.getD "Number") inputs st.material_area
        (Real.pi * (st.d / 2) ^ 2) = some st.N := by
  simp only [resolveState, hmode, Option.bind_eq_bind, Option.pure_def, if_true] at h
  rw [Option.bind_eq_some] at h
  obtain ⟨Draw, hD, h⟩ := h
  rw [Option.bind_eq_some] at h
  obtain ⟨traw, ht, h⟩ := h
  split at h <;>
  · rw [Option.bind_eq_some] at h
    obtain ⟨V0, hV, h⟩ := h
    rw [Option.bind_eq_some] at h
    obtain ⟨draw, hd, h⟩ := h
    rw [Option.bind_eq_some] at h
    obtain ⟨N0, hN, h⟩ := h
    obtain rfl := (Option.some.injEq _ _).mp h
    exact ⟨by split <;> positivity, rfl, hN⟩

/-- C3 corrected (amended claim): in Standard hole mode, a hole count
resolved from spacing is an integer floored at a minimum of 1; a hole count
resolved from areal density is truncated to an integer but has no minimum-1
floor (it can be 0, which then fails validation downstream). -/
theorem indirect_count_floor (inputs : Inputs) (st : ResolvedState)
    (hmode : inputs.hole_mode.getD "Standard" = "Standard")
    (hst : resolveState inputs = some st) :
    (inputs.mode.getD "Number" = "Spacing" → ∃ z : ℤ, st.N = (z : ℝ) ∧ 1 ≤ z) ∧
      (inputs.mode.getD "Number" = "Density" → ∃ z : ℤ, st.N = (z : ℝ)) := by
  obtain ⟨hma, hA, hN⟩ := resolveState_std_inv inputs st hmode hst
  constructor
  · intro hc
    rw [hc] at hN
    obtain ⟨sp, _, _, hval⟩ := resolveN_spacing_inv inputs _ _ _ hN
    exact ⟨_, hval, le_max_right _ _⟩
  · intro hc
    rw [hc] at hN
    obtain ⟨ρ, _, hval⟩ := resolveN_density_inv inputs _ _ _ hN
    exact ⟨_, hval⟩

/-- C4: in Standard hole mode with the Spacing hole-count mode, the resolved
hole count is `max(floor(density * material_area_cm2), 1)` where
`density = 1 / spacing_cm ^ 2` and `spacing_cm = spacing_mm / 10`. -/
theorem spacing_mode_closed_form (inputs : Inputs) (st : ResolvedState) (sp : ℝ)
    (hmode : inputs.hole_mode.getD "Standard" = "Standard")
    (hcalc : inputs.mode.getD "Number" = "Spacing")
    (hsp : inputs.spacing = some sp)
    (hst : resolveState inputs = some st) :
    st.N = ((max ⌊(1 / (sp / 10) ^ 2) * (st.material_area * 10000)⌋ 1 : ℤ) : ℝ) := by
  obtain ⟨hma, hA, hN⟩ := resolveState_std_inv inputs st hmode hst
  rw [hcalc] at hN
  obtain ⟨sp', hsp', hz, hval⟩ := resolveN_spacing_inv inputs _ _ _ hN
  rw [hsp] at hsp'
  obtain rfl : sp = sp' := (Option.some.injEq _ _).mp hsp'
  have hx : (0 : ℝ) ≤ (1 / (sp / 10) ^ 2) * (st.material_area * 10000) := by
    have h1 : (0 : ℝ) ≤ 1 / (sp / 10) ^ 2 := by positivity
    have h2 : (0 : ℝ) ≤ st.material_area * 10000 := by
      have : (0 : ℝ) ≤ (10000 : ℝ) := by norm_num
      exact mul_nonneg hma this
    exact mul_nonneg h1 h2
  have hfl : pyInt ((1 / (sp / 10) ^ 2) * (st.material_area * 10000)) =
      ⌊(1 / (sp / 10) ^ 2) * (st.material_area * 10000)⌋ := by
    rw [pyInt, if_pos hx]
  rw [hval, hfl]

/-- Evaluation: the spacing-mode input `wSpacing` resolves to `stSpacing`. -/
theorem resolveState_wSpacing : resolveState wSpacing = some stSpacing := by
  simp only [resolveState, wSpacing, resolveN, Option.getD_none, Option.getD_some,
    Option.bind_eq_bind, Option.pure_def, Option.some_bind, Option.map_some',
    if_true, if_false]
  norm_num
  rw [if_neg (by decide : ¬("Spacing" = "Number")), if_neg (by decide : ¬("Spacing" = "Density")),
    if_neg (by decide : ¬("Spacing" = "OA%"))]
  have e : Real.pi * (1 / 10000) * 10000 = Real.pi := by ring
  rw [e]
  have hpy : pyInt Real.pi = 3 := by
    rw [pyInt, if_pos Real.pi_pos.le, Int.floor_eq_iff]
    constructor
    · exact_mod_cast Real.pi_gt_three.le
    · have h4 := Real.pi_lt_d2
      push_cast
      linarith
  rw [hpy]
  norm_num [stSpacing]

/-- Evaluation: the direct-neck input `wDirect` resolves to `stDirect`. -/
theorem resolveState_wDirect : resolveState wDirect = some stDirect := by
  simp only [resolveState, wDirect, Option.getD_none, Option.getD_some,
    Option.bind_eq_bind, Option.pure_def, Option.some_bind, Option.map_some',
    if_true, if_false, eq_false (by decide : ¬("Direct Input" = "Standard"))]
  norm_num [stDirect]

/-- Evaluation: `wDirect` evaluates successfully to `mDirect`. -/
theorem calculate_metrics_wDirect : calculate_metrics wDirect = some mDirect := by
  simp only [calculate_metrics]
  rw [resolveState_wDirect]
  have hma : (0 : ℝ) < Real.pi * (1 / 20) ^ 2 := by positivity
  simp only [wDirect, stDirect, Option.getD_none, Option.getD_some,
    Option.bind_eq_bind, Option.pure_def, Option.some_bind, if_true, if_false,
    eq_false (by decide : ¬("Direct Input" = "Standard"))]
  norm_num [mDirect, hma]
  exact fun h => absurd h (not_le.mpr Real.pi_pos)

/-- Evaluation: `c2in` (temperature -300 °C) still resolves to `stDirect`,
since geometry resolution does not read the temperature. -/
theorem resolveState_c2in : resolveState c2in = some stDirect := by
  simp only [resolveState, c2in, wDirect, Option.getD_none, Option.getD_some,
    Option.bind_eq_bind, Option.pure_def, Option.some_bind, Option.map_some',
    if_true, if_false, eq_false (by decide : ¬("Direct Input" = "Standard"))]
  norm_num [stDirect]

/-- Evaluation: `c2in` fails overall, through the speed-of-sound root. -/
theorem calculate_metrics_c2in : calculate_metrics c2in = none := by
  simp only [calculate_metrics, c2in, wDirect, Option.getD_none, Option.getD_some,
    Option.bind_eq_bind, Option.pure_def, Option.some_bind, if_true, if_false]
  norm_num


/-- Evaluation: the density-mode input `c3in` resolves with `N = 0`. -/
theorem resolveState_c3in : resolveState c3in = some c3st := by
  simp only [resolveState, c3in, resolveN, Option.getD_none, Option.getD_some,
    Option.bind_eq_bind, Option.pure_def, Option.some_bind, Option.map_some',
    if_true, if_false]
  norm_num
  have e : (1 / 1000 : ℝ) * (Real.pi * (1 / 400) * 10000) = Real.pi / 40 := by ring
  rw [e]
  have hpy : pyInt (Real.pi / 40) = 0 := by
    rw [pyInt, if_pos (by positivity : (0 : ℝ) ≤ Real.pi / 40), Int.floor_eq_iff]
    constructor
    · push_cast
      positivity
    · have h4 := Real.pi_lt_d2
      push_cast
      linarith
  rw [hpy, if_neg (by decide : ¬("Density" = "Number"))]
  norm_num [c3st]

/-- Evaluation: the Number-mode input `wNumber` resolves to `stNumber`. -/
theorem resolveState_wNumber : resolveState wNumber = some stNumber := by
  simp only [resolveState, wNumber, resolveN, Option.getD_none, Option.getD_some,
    Option.bind_eq_bind, Option.pure_def, Option.some_bind, Option.map_some',
    if_true, if_false]
  norm_num [stNumber]

/-- Evaluation: `wNumber` evaluates successfully to `mNumber`. -/
theorem calculate_metrics_wNumber : calculate_metrics wNumber = some mNumber := by
  simp only [calculate_metrics]
  rw [resolveState_wNumber]
  have hma : (0 : ℝ) < Real.pi * (1 / 20) ^ 2 := by positivity
  have hA : (0 : ℝ) < 100 * (Real.pi * (1 / 400) ^ 2) := by positivity
  have hV : (0 : ℝ) < Real.pi * (1 / 20) ^ 2 * (1 / 100) := by positivity
  simp only [wNumber, stNumber, Option.getD_none, Option.getD_some,
    Option.bind_eq_bind, Option.pure_def, Option.some_bind, if_true, if_false]
  norm_num [mNumber, hma, hA, hV]
  refine ⟨Real.pi_pos, ?_⟩
  rw [if_neg (by decide : ¬("Number" = "Spacing"))]
  simp only [eq_true Real.pi_pos, if_true,
    eq_false (not_lt.mpr (by positivity : (0 : ℝ) ≤ Real.pi * (1 / 400) * 10000 / 100)),
    if_false, Option.some_bind]

/-- Evaluation: `c8in` (zero panel diameter, direct volume) evaluates
successfully to `c8m`, whose hole metrics are degenerate. -/
theorem calculate_metrics_c8in : calculate_metrics c8in = some c8m := by
  simp only [calculate_metrics]
  have hst : resolveState c8in = some c8st := by
    simp only [resolveState, c8in, resolveN, Option.getD_none, Option.getD_some,
      Option.bind_eq_bind, Option.pure_def, Option.some_bind, Option.map_some',
      if_true, if_false, eq_false (by decide : ¬("Direct Input" = "Standard"))]
    norm_num [c8st]
  rw [hst]
  have hA : (0 : ℝ) < 100 * (Real.pi * (1 / 400) ^ 2) := by positivity
  simp only [c8in, c8st, Option.getD_none, Option.getD_some,
    Option.bind_eq_bind, Option.pure_def, Option.some_bind, if_true, if_false]
  norm_num [c8m, hA]
  exact ⟨Real.pi_pos, rfl⟩

/-- Helper: when the temperature and correction factor are present, the
temperature is physical, and the resolved `A`, `V`, `Leff` are positive,
the evaluation succeeds. -/
theorem calculate_metrics_success (inputs : Inputs) (T k : ℝ) (st : ResolvedState)
    (hT : inputs.temp = some T) (hTok : ¬(273.15 + T < 0)) (hk : inputs.k = some k)
    (hst : resolveState inputs = some st)
    (hA : 0 < st.A) (hV : 0 < st.V) (hL : 0 < st.Leff) :
    ∃ m, calculate_metrics inputs = some m := by
  simp only [calculate_metrics, hT, Option.bind_eq_bind, Option.pure_def, Option.some_bind]
  rw [if_neg hTok, hst, Option.some_bind,
    if_neg (show ¬(st.A ≤ 0 ∨ st.V ≤ 0 ∨ st.Leff ≤ 0) by push_neg; exact ⟨hA, hV, hL⟩),
    hk, Option.some_bind]
  by_cases hhm : inputs.hole_mode.getD "Standard" = "Standard"
  · rw [if_pos hhm]
    obtain ⟨hma0, hAeq, hN⟩ := resolveState_std_inv inputs st hhm hst
    have hha : (0 : ℝ) ≤ Real.pi * (st.d / 2) ^ 2 := by positivity
    have hNpos : 0 < st.N := by
      rcases mul_pos_iff.mp (hAeq ▸ hA) with ⟨h1, _⟩ | ⟨_, h2⟩
      · exact h1
      · exact absurd h2 (not_lt.mpr hha)
    have hql : ∀ _ : st.N ≠ 0 ∧ st.material_area > 0,
        ¬(1 / (st.N / (st.material_area * 10000)) < 0) := fun hcond =>
      not_lt.mpr (one_div_pos.mpr (div_pos hNpos (mul_pos hcond.2 (by norm_num)))).le
    by_cases hcalc : inputs.mode.getD "Number" = "Spacing"
    · rw [hcalc] at hN
      obtain ⟨sp, hsp, hz, _⟩ := resolveN_spacing_inv inputs _ _ _ hN
      have hsp0 : ¬((4 : ℝ) * sp ^ 2 = 0) := by
        intro hc
        refine hz ?_
        have h2 : sp ^ 2 = 0 := (mul_eq_zero.mp hc).resolve_left (by norm_num)
        rw [div_pow, h2]
        norm_num
      by_cases hcond : st.N ≠ 0 ∧ st.material_area > 0
      · rw [if_pos hcalc, hsp, Option.some_bind, if_neg hsp0, Option.some_bind,
          if_pos hcond, if_neg (hql hcond)]
        exact ⟨_, rfl⟩
      · rw [if_pos hcalc, hsp, Option.some_bind, if_neg hsp0, Option.some_bind,
          if_neg hcond]
        exact ⟨_, rfl⟩
    · by_cases hcond : st.N ≠ 0 ∧ st.material_area > 0
      · rw [if_neg hcalc, if_pos hcond, if_neg (hql hcond)]
        exact ⟨_, rfl⟩
      · rw [if_neg hcalc, if_neg hcond]
        exact ⟨_, rfl⟩
  · rw [if_neg hhm]
    exact ⟨_, rfl⟩

/-- C1: for every input whose evaluation succeeds, the returned resonance
frequency is `f0 = k * (c / (2*pi)) * sqrt(A / (V * L_eff))` with speed of
sound `c = 20.05 * sqrt(273.15 + temperature_C)`, evaluated at the resolved
open area `A` (m²), cavity volume (`V` liters / 1000) and effective neck
length (`Leff` mm / 1000) reported in the result itself. -/
theorem resonance_formula_of_success (inputs : Inputs) (m : Metrics) (T k : ℝ)
    (hm : calculate_metrics inputs = some m)
    (hT : inputs.temp = some T) (hk : inputs.k = some k) :
    m.f0 = k * ((20.05 * Real.sqrt (273.15 + T)) / (2 * Real.pi)) *
      Real.sqrt (m.A / ((m.V / 1000) * (m.Leff / 1000))) := by
  simp only [calculate_metrics, hT, Option.bind_eq_bind, Option.pure_def,
    Option.some_bind] at hm
  split at hm
  · exact absurd hm (by simp)
  · rw [Option.bind_eq_some] at hm
    obtain ⟨st, hst, hm⟩ := hm
    split at hm
    · exact absurd hm (by simp)
    · rw [hk, Option.some_bind] at hm
      have hcancel : ∀ x : ℝ, x * 1000 / 1000 = x := fun x =>
        mul_div_cancel_right₀ x (by norm_num)
      split at hm
      · rw [Option.bind_eq_some] at hm
        obtain ⟨oa, hoa, hm⟩ := hm
        rw [Option.bind_eq_some] at hm
        obtain ⟨sv, hsv, hm⟩ := hm
        obtain rfl := (Option.some.injEq _ _).mp hm
        dsimp only
        rw [hcancel, hcancel]
      · obtain rfl := (Option.some.injEq _ _).mp hm
        dsimp only
        rw [hcancel, hcancel]

/-- Witness for C1 at the concrete direct-neck input `wDirect`. -/
theorem resonance_formula_witness :
    mDirect.f0 = 1 * ((20.05 * Real.sqrt (273.15 + 20)) / (2 * Real.pi)) *
      Real.sqrt (mDirect.A / ((mDirect.V / 1000) * (mDirect.Leff / 1000))) :=
  resonance_formula_of_success wDirect mDirect 20 1 calculate_metrics_wDirect rfl rfl

/-- C2 counterexample: an input whose resolved `A`, `V`, `L_eff` are all
strictly positive but whose evaluation still fails: the temperature is
below absolute zero, so the speed-of-sound square root raises before the
geometry validation is reached; the claimed equivalence is false. -/
theorem failure_not_only_geometry_cex :
    resolveState c2in = some stDirect ∧ 0 < stDirect.A ∧ 0 < stDirect.V ∧
      0 < stDirect.Leff ∧ calculate_metrics c2in = none := by
  refine ⟨resolveState_c2in, ?_, ?_, ?_, calculate_metrics_c2in⟩ <;> norm_num [stDirect]

/-- C2 amended: for inputs whose temperature is present and at least
-273.15 °C and whose correction factor `k` is present, an evaluation whose
geometry resolves to `(A, V, L_eff)` fails exactly when at least one of
`A`, `V`, `L_eff` is zero or negative; the failure is returned as the
value `none`, never propagated as an exception. -/
theorem failure_iff_invalid_geometry (inputs : Inputs) (T k : ℝ) (st : ResolvedState)
    (hT : inputs.temp = some T) (hTok : ¬(273.15 + T < 0)) (hk : inputs.k = some k)
    (hst : resolveState inputs = some st) :
    (calculate_metrics inputs = none ↔ st.A ≤ 0 ∨ st.V ≤ 0 ∨ st.Leff ≤ 0) := by
  constructor
  · intro hnone
    by_contra hval
    push_neg at hval
    obtain ⟨hA, hV, hL⟩ := hval
    obtain ⟨m, hm⟩ := calculate_metrics_success inputs T k st hT hTok hk hst hA hV hL
    rw [hnone] at hm
    exact Option.noConfusion hm
  · intro hval
    simp only [calculate_metrics, hT, Option.bind_eq_bind, Option.pure_def,
      Option.some_bind]
    rw [if_neg hTok, hst, Option.some_bind, if_pos hval]

/-- Witness for C2 amended at the concrete input `wDirect`. -/
theorem failure_iff_invalid_geometry_witness :
    (calculate_metrics wDirect = none ↔
      stDirect.A ≤ 0 ∨ stDirect.V ≤ 0 ∨ stDirect.Leff ≤ 0) :=
  failure_iff_invalid_geometry wDirect 20 1 stDirect rfl (by norm_num) rfl
    resolveState_wDirect

/-- C3 counterexample: in Density mode with 0.001 holes/cm² on a 100 mm
panel, the indirectly resolved hole count is 0 — it is not floored to a
minimum of 1 as the claim states. -/
theorem density_count_zero_cex : resolvedN c3in = some 0 := by
  rw [resolvedN, resolveState_c3in]
  norm_num [c3st]

/-- Witness for C3 amended at the concrete spacing-mode input `wSpacing`. -/
theorem indirect_count_floor_witness :
    (wSpacing.mode.getD "Number" = "Spacing" →
        ∃ z : ℤ, stSpacing.N = (z : ℝ) ∧ 1 ≤ z) ∧
      (wSpacing.mode.getD "Number" = "Density" → ∃ z : ℤ, stSpacing.N = (z : ℝ)) :=
  indirect_count_floor wSpacing stSpacing rfl resolveState_wSpacing

/-- Witness for C4 at the concrete spacing-mode input `wSpacing`. -/
theorem spacing_mode_closed_form_witness :
    stSpacing.N =
      ((max ⌊(1 / ((10 : ℝ) / 10) ^ 2) * (stSpacing.material_area * 10000)⌋ 1 : ℤ) : ℝ) :=
  spacing_mode_closed_form wSpacing stSpacing 10 rfl rfl rfl resolveState_wSpacing

/-- C8 counterexample: a successful Standard-hole-mode evaluation with
`N = 100 > 0` whose derived density and spacing are both 0, because the
panel diameter is 0 and the material area resolves to 0; it violates
`density * spacing^2 = 100`. -/
theorem roundtrip_fails_zero_area_cex :
    c8in.hole_mode.getD "Standard" = "Standard" ∧
      calculate_metrics c8in = some c8m ∧ (0 : ℝ) < c8m.N ∧
      c8m.density * c8m.spacing ^ 2 ≠ 100 := by
  refine ⟨rfl, calculate_metrics_c8in, by norm_num [c8m], by norm_num [c8m]⟩

/-- C8 amended: for every successful Standard-hole-mode evaluation whose
resolved material area is strictly positive, the derived metrics satisfy
`density * spacing^2 = 100` exactly (in real arithmetic). -/
theorem roundtrip_density_spacing (inputs : Inputs) (st : ResolvedState) (m : Metrics)
    (hmode : inputs.hole_mode.getD "Standard" = "Standard")
    (hst : resolveState inputs = some st) (hma : 0 < st.material_area)
    (hm : calculate_metrics inputs = some m) :
    m.density * m.spacing ^ 2 = 100 := by
  obtain ⟨hma0, hAeq, hN⟩ := resolveState_std_inv inputs st hmode hst
  simp only [calculate_metrics, Option.bind_eq_bind, Option.pure_def] at hm
  rw [Option.bind_eq_some] at hm
  obtain ⟨T, hT, hm⟩ := hm
  split at hm
  · exact absurd hm (by simp)
  · rw [hst, Option.some_bind] at hm
    split at hm
    · exact absurd hm (by simp)
    case isFalse hval =>
      rw [Option.bind_eq_some] at hm
      obtain ⟨k, hk, hm⟩ := hm
      rw [Option.bind_eq_some] at hm
      obtain ⟨oa, hoa, hm⟩ := hm
      rw [Option.bind_eq_some] at hm
      obtain ⟨sv, hsv, hm⟩ := hm
      obtain rfl := (Option.some.injEq _ _).mp hm
      have hA : 0 < st.A := not_le.mp (not_or.mp hval).1
      have hha : (0 : ℝ) ≤ Real.pi * (st.d / 2) ^ 2 := by positivity
      have hNpos : 0 < st.N := by
        rcases mul_pos_iff.mp (hAeq ▸ hA) with ⟨h1, _⟩ | ⟨_, h2⟩
        · exact h1
        · exact absurd h2 (not_lt.mpr hha)
      have hq : 0 < st.N / (st.material_area * 10000) :=
        div_pos hNpos (mul_pos hma (by norm_num))
      rw [if_pos ⟨ne_of_gt hNpos, hma⟩, if_neg (not_lt.mpr (one_div_pos.mpr hq).le)] at hsv
      obtain rfl := (Option.some.injEq _ _).mp hsv
      dsimp only
      rw [mul_pow, Real.sq_sqrt (one_div_pos.mpr hq).le]
      have hq' : st.N / (st.material_area * 10000) ≠ 0 := ne_of_gt hq
      field_simp
      ring

/-- Witness for C8 amended at the concrete Number-mode input `wNumber`. -/
theorem roundtrip_density_spacing_witness :
    0 < stNumber.material_area ∧ mNumber.density * mNumber.spacing ^ 2 = 100 :=
  ⟨by norm_num [stNumber]; positivity,
    roundtrip_density_spacing wNumber stNumber mNumber rfl resolveState_wNumber
      (by norm_num [stNumber]; positivity) calculate_metrics_wNumber⟩
